import Mathlib

/-!
# Verification of the project-management dashboard's fan-out / write core

Shallow embedding of the parts of the Django backend that the verified
properties talk about:

* `projects/permissions.py` — view/edit capability checks;
* `projects/models.py` — `BaseModel.save` with its etag/version handling;
* `projects/views.py` — `capture_project_changes`,
  `ProjectViewSet.perform_update`, `soft_delete`, `restore`, `bulk_update`,
  `TaskViewSet.perform_update`, `MilestoneViewSet`;
* `core/consumers.py` — `NotificationConsumer.receive` (room subscribe);
* `websocket_service/consumers.py` — `ProjectUpdateConsumer.connect`;
* `websocket_service/channels_broadcast.py` — `notify_project_team` and the
  `broadcast_*` helpers.

Database rows are explicit records, the channel layer is an association list
from group names to the channel names joined to that group, and timestamps
are abstract `Nat` instants.
-/

set_option linter.unusedVariables false

namespace PMDash

/-! ## Data model -/

/-- A resolved identity as the permission code sees a Django `User`:
its primary key and the `is_superuser` flag. -/
structure Principal where
  uid : Nat
  is_superuser : Bool
deriving DecidableEq, Repr

/-- One `TeamMember` row: which user sits on which project with which
`Role.key`.  The `capacity` column is never consulted by any code modelled
here, so it is omitted. -/
structure Membership where
  projectId : Nat
  userId : Nat
  roleKey : String
deriving DecidableEq, Repr

/-- The value space of the `etag` CharField.  `md5 id ts` stands for the MD5
hex digest of `json.dumps({"id": id, "updated_at": str(ts)}, sort_keys=True)`
as computed by `BaseModel.generate_etag`; since MD5 is deterministic and
collision-free on the inputs occurring here, the digest is modelled by the
pair it was computed from.  `empty` is the CharField's initial `""`;
`other s` is any client-supplied string that is not a digest produced by
this code. -/
inductive EtagStr where
  | empty : EtagStr
  | md5 (id : Option Nat) (ts : Option Nat) : EtagStr
  | other (s : String) : EtagStr
deriving DecidableEq, Repr

/-- The columns `BaseModel` (projects/models.py) contributes to every row,
together with the primary key.  `pk = none` means the instance has not been
INSERTed yet.  `version` defaults to `1` and `etag` to `""` on a fresh
instance. -/
structure BaseFields where
  pk : Option Nat
  created_at : Option Nat
  updated_at : Option Nat
  deleted_at : Option Nat
  version : Nat
  etag : EtagStr
deriving DecidableEq, Repr

/-- Model of `BaseModel.generate_etag`: overwrite `etag` from the CURRENT
in-memory `pk` and `updated_at`.  `save` calls this BEFORE the row is
written, hence before `auto_now` refreshes `updated_at` and before an INSERT
assigns `pk`. -/
def generate_etag (b : BaseFields) : BaseFields :=
  { b with etag := EtagStr.md5 b.pk b.updated_at }

/-- Model of Django's `Model.save` (the `super().save()` call inside
`BaseModel.save`): on INSERT the database assigns `newPk` and
`auto_now_add` stamps `created_at`; `auto_now` stamps `updated_at` on every
save; every in-memory field value is written to the row.  Returns the
persisted row. -/
def django_model_save (b : BaseFields) (now : Nat) (newPk : Nat) : BaseFields :=
  { b with
    pk := some (b.pk.getD newPk)
    created_at := if b.pk = none then some now else b.created_at
    updated_at := some now }

/-- Model of `BaseModel.save`: run `generate_etag()`, then
`super().save(...)`, then `self.version += 1`.  Returns
`(persisted row, in-memory instance)`: the version bump is executed after
the write, so it reaches only the in-memory copy, never the database row. -/
def BaseModel.save (b : BaseFields) (now : Nat) (newPk : Nat) :
    BaseFields × BaseFields :=
  let row := django_model_save (generate_etag b) now newPk
  (row, { row with version := row.version + 1 })

/-- Model of `BaseModel.soft_delete`: set the tombstone, then `save`. -/
def BaseModel.soft_delete (b : BaseFields) (now : Nat) :
    BaseFields × BaseFields :=
  BaseModel.save { b with deleted_at := some now } now 0

/-- Model of `BaseModel.restore`: clear the tombstone, then `save`. -/
def BaseModel.restore (b : BaseFields) (now : Nat) :
    BaseFields × BaseFields :=
  BaseModel.save { b with deleted_at := none } now 0

/-- A `Project` row: the `BaseModel` columns plus the project's own tracked
fields (dates are abstract `Nat` day numbers). -/
structure ProjectRow where
  base : BaseFields
  owner : Nat
  title : String
  description : String
  status : String
  health : String
  progress : Int
  start_date : Option Nat
  end_date : Option Nat
deriving DecidableEq, Repr

/-- Saving a `Project` goes through the inherited `BaseModel.save`; the
payload columns are written as they stand in memory. -/
def ProjectRow.save (p : ProjectRow) (now : Nat) (newPk : Nat) :
    ProjectRow × ProjectRow :=
  ({ p with base := (BaseModel.save p.base now newPk).1 },
   { p with base := (BaseModel.save p.base now newPk).2 })

/-! ## Permissions (projects/permissions.py) -/

/-- Model of `can_view_project_details`: superuser, owner, or any
`TeamMember` row for `(project, user)`. -/
def can_view_project_details (mems : List Membership) (user : Principal)
    (project : ProjectRow) : Bool :=
  if user.is_superuser || project.owner == user.uid then true
  else mems.any fun m =>
    project.base.pk == some m.projectId && m.userId == user.uid

/-- Model of `CanViewProjectDetails.has_object_permission`: superuser,
owner, or any `TeamMember` row for `(project, user)`. -/
def CanViewProjectDetails.has_object_permission (mems : List Membership)
    (user : Principal) (obj : ProjectRow) : Bool :=
  if user.is_superuser || obj.owner == user.uid then true
  else mems.any fun m =>
    obj.base.pk == some m.projectId && m.userId == user.uid

/-- Model of `CanEditProject.has_object_permission`.  Safe (read) methods
fall back to the view check; writes require superuser, owner, or a
membership whose role key is `lead` or `manager` (`TeamMember.objects.get`
is modelled by `find?`; `unique_together ["project", "user"]` makes the row
unique when it exists). -/
def CanEditProject.has_object_permission (mems : List Membership)
    (safeMethod : Bool) (user : Principal) (obj : ProjectRow) : Bool :=
  if safeMethod then CanViewProjectDetails.has_object_permission mems user obj
  else if user.is_superuser || obj.owner == user.uid then true
  else
    match mems.find? (fun m =>
        obj.base.pk == some m.projectId && m.userId == user.uid) with
    | some m => m.roleKey == "lead" || m.roleKey == "manager"
    | none => false

/-- The spec's own wording of the edit capability (claim C9): true exactly
for admins, the owner, and team members whose role key is in the
edit-capable set `{lead, manager}`. -/
def editCapableSpec (mems : List Membership) (user : Principal)
    (project : ProjectRow) : Bool :=
  user.is_superuser || project.owner == user.uid ||
    mems.any fun m =>
      project.base.pk == some m.projectId && m.userId == user.uid &&
        (m.roleKey == "lead" || m.roleKey == "manager")

/-- The `unique_together = ["project", "user"]` constraint on `TeamMember`:
no two rows for the same (project, user) pair. -/
def UniqueMemberships (mems : List Membership) : Prop :=
  mems.Pairwise fun a b => ¬(a.projectId = b.projectId ∧ a.userId = b.userId)

instance (mems : List Membership) : Decidable (UniqueMemberships mems) := by
  unfold UniqueMemberships
  infer_instance

/-! ## Channel layer and WebSocket consumers -/

/-- Member channels of a group in the channel layer's group table
(`InMemoryChannelLayer.groups`); an absent group has no members. -/
def groupMembers (layer : List (String × List String)) (room : String) :
    List String :=
  match layer with
  | [] => []
  | (r, chs) :: rest => if r = room then chs else groupMembers rest room

/-- Model of `channel_layer.group_add(group, channel)`: add the channel to
the group's member set (re-adding an already-present channel is a no-op,
since the layer keys group members by channel name). -/
def group_add : List (String × List String) → String → String →
    List (String × List String)
  | [], room, chan => [(room, [chan])]
  | (r, chs) :: rest, room, chan =>
    if r = room then
      (r, if chs.contains chan then chs else chs ++ [chan]) :: rest
    else (r, chs) :: group_add rest room chan

/-- Model of `channel_layer.group_discard(group, channel)`: remove the
channel from the group's member set. -/
def group_discard : List (String × List String) → String → String →
    List (String × List String)
  | [], _, _ => []
  | (r, chs) :: rest, room, chan =>
    if r = room then (r, chs.filter (· ≠ chan)) :: rest
    else (r, chs) :: group_discard rest room chan

/-- Python's f-string rendering of a possibly-absent id
(`f"project_{data.get('project_id')}"` renders a missing id as `None`). -/
def pyIdStr : Option Nat → String
  | some n => toString n
  | none => "None"

/-- Room name `f"project_{project_id}"`. -/
def projectRoom (pid : Option Nat) : String := "project_" ++ pyIdStr pid

/-- A parsed client → server message on the notifications socket (after
`json.loads` succeeded); `invalidJson` is a `json.JSONDecodeError`, which
the consumer logs and ignores.  A missing `project_id` key is `none`. -/
inductive ClientMsg where
  | subscribe_project (project_id : Option Nat)
  | unsubscribe_project (project_id : Option Nat)
  | otherType
  | invalidJson
deriving DecidableEq, Repr

/-- Model of `core/consumers.py::NotificationConsumer.receive` for an open
session: its effect on the channel layer.  The handler consults neither the
database nor any permission function — a `subscribe_project` message joins
the session's channel to the project room unconditionally. -/
def NotificationConsumer.receive (layer : List (String × List String))
    (channelName : String) (msg : ClientMsg) :
    List (String × List String) :=
  match msg with
  | .subscribe_project pid => group_add layer (projectRoom pid) channelName
  | .unsubscribe_project pid => group_discard layer (projectRoom pid) channelName
  | .otherType => layer
  | .invalidJson => layer

/-- Method names defined in class `ProjectUpdateConsumer`
(websocket_service/consumers.py).  There is no `get_user_from_token` among
them. -/
def ProjectUpdateConsumer.methods : List String :=
  ["connect", "disconnect", "receive", "project_update", "activity_event"]

/-- Method names defined in class `TaskUpdateConsumer` (same file) — unlike
`ProjectUpdateConsumer`, it carries its own token-authentication helpers. -/
def TaskUpdateConsumer.methods : List String :=
  ["connect", "disconnect", "receive", "task_created", "task_updated",
   "task_deleted", "task_status_changed", "task_assigned",
   "verify_project_access", "get_user_from_token", "_authenticate_token"]

/-- Callables of the base class
`channels.generic.websocket.AsyncWebsocketConsumer` and its own bases
(external framework, modelled from its public API: connection lifecycle and
transport helpers).  It defines no token helper. -/
def AsyncWebsocketConsumer.methods : List String :=
  ["connect", "disconnect", "receive", "accept", "close", "send",
   "websocket_connect", "websocket_receive", "websocket_disconnect",
   "dispatch", "send_headers"]

/-- Python attribute lookup along a method-resolution order. -/
def resolves (mro : List (List String)) (name : String) : Bool :=
  mro.any fun cls => cls.contains name

/-- Outcome of a consumer's `connect` coroutine. -/
inductive ConnectOutcome where
  | accepted
  | closed
  | attributeError
deriving DecidableEq, Repr

/-- Model of `websocket_service/consumers.py::ProjectUpdateConsumer.connect`
for the `ws/projects/<project_id>/` endpoint: store `project_id` and the
group name, then evaluate `self.get_user_from_token()`.  That attribute
lookup precedes both `close()` and `accept()`; if it fails, the coroutine
raises `AttributeError` and the handshake is never completed.  The branch
below the lookup is the rest of the body as written (reject anonymous, else
join the group and accept). -/
def ProjectUpdateConsumer.connect (layer : List (String × List String))
    (projectId : Nat) (chan : String) (authOk : Bool) :
    ConnectOutcome × List (String × List String) :=
  let group := "project_updates_" ++ toString projectId
  if resolves [ProjectUpdateConsumer.methods, AsyncWebsocketConsumer.methods]
      "get_user_from_token" then
    if authOk then (.accepted, group_add layer group chan)
    else (.closed, layer)
  else (.attributeError, layer)

/-! ## Broadcast helpers (channels_broadcast.py) -/

/-- The tagged payloads the broadcast helpers `group_send`.  The first
`String` in each constructor is the payload's `event_type` field; the
constructor itself is the payload's `"type"` key (the consumer handler
method the channel layer will invoke). -/
inductive WsEvent where
  | notification (event_type : String) (title message : String)
      (projectId : Option Nat) (actorId : Nat)
  | projectUpdated (event_type : String) (projectId : Option Nat)
  | teamMemberChanged (event_type : String) (projectId : Option Nat)
  | milestoneChanged (event_type : String) (projectId : Option Nat)
deriving DecidableEq, Repr

/-- Model of `channels_broadcast.py::notify_project_team`: build one
`notification_received` payload embedding the acting user, and `group_send`
it to room `project_<id>` — i.e. deliver it to every channel currently in
that room.  The `exclude_user` argument is accepted but never read in the
body: no recipient is filtered out. -/
def notify_project_team (layer : List (String × List String))
    (project : ProjectRow) (event_type : String) (actor_user : Nat)
    (title message : String) (exclude_user : Option Nat) :
    List (String × WsEvent) :=
  (groupMembers layer (projectRoom project.base.pk)).map fun ch =>
    (ch, WsEvent.notification event_type title message project.base.pk
      actor_user)

/-- Model of `channels_broadcast.py::broadcast_project_update`: `group_send`
a `project_updated` payload to room `project_<id>`. -/
def broadcast_project_update (layer : List (String × List String))
    (project_id : Option Nat) (event_type : String) :
    List (String × WsEvent) :=
  (groupMembers layer (projectRoom project_id)).map fun ch =>
    (ch, WsEvent.projectUpdated event_type project_id)

/-- Model of `channels_broadcast.py::broadcast_team_member_change`. -/
def broadcast_team_member_change (layer : List (String × List String))
    (project_id : Option Nat) (event_type : String) :
    List (String × WsEvent) :=
  (groupMembers layer (projectRoom project_id)).map fun ch =>
    (ch, WsEvent.teamMemberChanged event_type project_id)

/-- Model of `channels_broadcast.py::broadcast_milestone_change`. -/
def broadcast_milestone_change (layer : List (String × List String))
    (project_id : Option Nat) (event_type : String) :
    List (String × WsEvent) :=
  (groupMembers layer (projectRoom project_id)).map fun ch =>
    (ch, WsEvent.milestoneChanged event_type project_id)

/-! ## Write path (projects/views.py) -/

/-- A Python value occurring in `serializer.validated_data` or on a tracked
project field: a string, an int, or a date-or-None. -/
inductive FieldVal where
  | s (v : String)
  | i (v : Int)
  | d (v : Option Nat)
deriving DecidableEq, Repr

/-- Rendering `str(value) if value is not None else None` as used by
`capture_project_changes` when recording previous/new values. -/
def strOfVal : FieldVal → Option String
  | .s v => some v
  | .i v => some (toString v)
  | .d (some n) => some (toString n)
  | .d none => none

/-- The fixed allow-list of tracked project fields in
`capture_project_changes`. -/
def trackedFields : List String :=
  ["title", "description", "status", "health", "progress",
   "start_date", "end_date"]

/-- Reading `getattr(instance, field_name)` for the tracked fields (the
function is only ever applied to members of `trackedFields`). -/
def projectFieldVal (row : ProjectRow) : String → FieldVal :=
  fun f =>
    if f = "title" then .s row.title
    else if f = "description" then .s row.description
    else if f = "status" then .s row.status
    else if f = "health" then .s row.health
    else if f = "progress" then .i row.progress
    else if f = "start_date" then .d row.start_date
    else .d row.end_date

/-- The condition under which `capture_project_changes` records field `f`:
the field is present in `validated_data` and its submitted value differs
from the instance's current value. -/
def fieldChanged (row : ProjectRow) (vd : List (String × FieldVal))
    (f : String) : Bool :=
  match List.lookup f vd with
  | some nv => projectFieldVal row f != nv
  | none => false

/-- The record `capture_project_changes` builds. -/
structure Changes where
  changed_fields : List String
  previous_values : List (String × Option String)
  new_values : List (String × Option String)
deriving DecidableEq, Repr

/-- One loop iteration of `capture_project_changes`. -/
def captureStep (row : ProjectRow) (vd : List (String × FieldVal))
    (ch : Changes) (f : String) : Changes :=
  match List.lookup f vd with
  | some nv =>
    if projectFieldVal row f ≠ nv then
      { changed_fields := ch.changed_fields ++ [f],
        previous_values := ch.previous_values
          ++ [(f, strOfVal (projectFieldVal row f))],
        new_values := ch.new_values ++ [(f, strOfVal nv)] }
    else ch
  | none => ch

/-- Model of `views.py::capture_project_changes`: fold the recording step
over the tracked-field allow-list. -/
def capture_project_changes (row : ProjectRow)
    (vd : List (String × FieldVal)) : Changes :=
  trackedFields.foldl (captureStep row vd) ⟨[], [], []⟩

/-- Write-back of `validated_data` onto the instance by `serializer.save()`
(partial update: absent keys leave the field unchanged; the serializer
guarantees each present value has the field's type). -/
def applyPatch (row : ProjectRow) (vd : List (String × FieldVal)) :
    ProjectRow :=
  { row with
    title := match List.lookup "title" vd with
      | some (.s v) => v | _ => row.title
    description := match List.lookup "description" vd with
      | some (.s v) => v | _ => row.description
    status := match List.lookup "status" vd with
      | some (.s v) => v | _ => row.status
    health := match List.lookup "health" vd with
      | some (.s v) => v | _ => row.health
    progress := match List.lookup "progress" vd with
      | some (.i v) => v | _ => row.progress
    start_date := match List.lookup "start_date" vd with
      | some (.d v) => v | _ => row.start_date
    end_date := match List.lookup "end_date" vd with
      | some (.d v) => v | _ => row.end_date }

/-- One `Activity` row (the change ledger).  The human-readable description
is abbreviated to a fixed label per call site; the claims only concern the
structured fields. -/
structure ActivityEntry where
  projectId : Option Nat
  activity_type : String
  userId : Option Nat
  description : String
  changed_fields : List String
  previous_values : List (String × Option String)
  new_values : List (String × Option String)
deriving DecidableEq, Repr

/-- Everything observable from one mutating view call: HTTP-level status,
the persisted project row afterwards, the ledger entries appended, and the
payloads pushed to channels. -/
structure UpdateOutcome where
  httpStatus : Nat
  row : ProjectRow
  newActivities : List ActivityEntry
  pushed : List (String × WsEvent)
deriving DecidableEq, Repr

/-- Status code of `core/exceptions.py::OptimisticConcurrencyException`
(`HTTP_409_CONFLICT`). -/
def OptimisticConcurrencyException.status_code : Nat := 409

/-- The guard in `ProjectViewSet.perform_update`:
`if etag and etag != instance.etag` — a truthy (present, non-empty) request
etag that differs from the stored one. -/
def etagConflict (reqEtag : Option EtagStr) (row : ProjectRow) : Bool :=
  match reqEtag with
  | some e => e != EtagStr.empty && e != row.base.etag
  | none => false

/-- Model of `ProjectViewSet.perform_update`: when the etag guard trips,
`OptimisticConcurrencyException` is raised (→ 409) BEFORE anything is
written — row, ledger and channel layer are untouched.  Otherwise capture
the diff, save through `BaseModel.save`, append one `updated` Activity
carrying exactly the captured diff, then broadcast and notify (the notify
call passes `exclude_user = actor`). -/
def ProjectViewSet.perform_update (layer : List (String × List String))
    (reqEtag : Option EtagStr) (row : ProjectRow)
    (vd : List (String × FieldVal)) (actorId : Nat) (now : Nat) :
    UpdateOutcome :=
  if etagConflict reqEtag row then
    { httpStatus := OptimisticConcurrencyException.status_code, row := row,
      newActivities := [], pushed := [] }
  else
    let changes := capture_project_changes row vd
    let project := (ProjectRow.save (applyPatch row vd) now 0).1
    { httpStatus := 200,
      row := project,
      newActivities := [{ projectId := project.base.pk,
                          activity_type := "updated",
                          userId := some actorId,
                          description := "Project updated",
                          changed_fields := changes.changed_fields,
                          previous_values := changes.previous_values,
                          new_values := changes.new_values }],
      pushed := broadcast_project_update layer project.base.pk "updated"
        ++ notify_project_team layer project "project_updated" actorId
             "Project Updated" "Project updated" (some actorId) }

/-- Model of the `ProjectViewSet.soft_delete` action (permission layer —
owner or admin — already passed): tombstone + save, one `updated`-type
Activity with no field diff, broadcast `deleted`, notify `project_deleted`
(passing `exclude_user = actor`). -/
def ProjectViewSet.soft_delete (layer : List (String × List String))
    (row : ProjectRow) (actorId : Nat) (now : Nat) : UpdateOutcome :=
  let project :=
    { row with base := (BaseModel.soft_delete row.base now).1 }
  { httpStatus := 200, row := project,
    newActivities := [{ projectId := project.base.pk,
                        activity_type := "updated",
                        userId := some actorId,
                        description := "Project soft-deleted",
                        changed_fields := [],
                        previous_values := [], new_values := [] }],
    pushed := broadcast_project_update layer project.base.pk "deleted"
      ++ notify_project_team layer project "project_deleted" actorId
           "Project Deleted" "Project deleted" (some actorId) }

/-- Model of the `ProjectViewSet.restore` action: 400 if the project is not
deleted; otherwise clear the tombstone + save, one `restored` Activity,
broadcast `restored`, notify `project_restored`. -/
def ProjectViewSet.restore (layer : List (String × List String))
    (row : ProjectRow) (actorId : Nat) (now : Nat) : UpdateOutcome :=
  if row.base.deleted_at = none then
    { httpStatus := 400, row := row, newActivities := [], pushed := [] }
  else
    let project := { row with base := (BaseModel.restore row.base now).1 }
    { httpStatus := 200, row := project,
      newActivities := [{ projectId := project.base.pk,
                          activity_type := "restored",
                          userId := some actorId,
                          description := "Project restored",
                          changed_fields := [],
                          previous_values := [], new_values := [] }],
      pushed := broadcast_project_update layer project.base.pk "restored"
        ++ notify_project_team layer project "project_restored" actorId
             "Project Restored" "Project restored" (some actorId) }

/-- Selection predicate of `ProjectViewSet.bulk_update`:
`Project.objects.filter(id__in=project_ids, owner=request.user)` under the
soft-delete manager. -/
def bulkSelected (user : Principal) (project_ids : List Nat)
    (p : ProjectRow) : Bool :=
  p.base.deleted_at == none
    && (match p.base.pk with
        | some k => project_ids.contains k
        | none => false)
    && p.owner == user.uid

/-- Observable outcome of one `bulk_update` call: status, the whole project
table afterwards, the appended ledger entries. -/
structure BulkOutcome where
  httpStatus : Nat
  db : List ProjectRow
  newActivities : List ActivityEntry
deriving DecidableEq, Repr

/-- Model of `ProjectViewSet.bulk_update`: select the live, targeted,
owner-owned projects; 403 unless that covers every requested id; 409 if any
selected project's etag differs from the common expected etag; otherwise
apply the field changes (`QuerySet.update`), re-save every selected row
through `BaseModel.save`, and append ONE aggregate `bulk_updated` Activity
for the whole batch.  On 403/409 the table and the ledger are returned
untouched (the `transaction.atomic` block wraps the whole body and nothing
has been written before the checks). -/
def ProjectViewSet.bulk_update (db : List ProjectRow) (user : Principal)
    (project_ids : List Nat) (etag : EtagStr)
    (statusUpd healthUpd : Option String) (now : Nat) : BulkOutcome :=
  let projects := db.filter (bulkSelected user project_ids)
  if projects.length ≠ project_ids.length then
    { httpStatus := 403, db := db, newActivities := [] }
  else if projects.any (fun p => p.base.etag != etag) then
    { httpStatus := 409, db := db, newActivities := [] }
  else
    let upd := fun p : ProjectRow =>
      { p with status := statusUpd.getD p.status,
               health := healthUpd.getD p.health }
    let db' := db.map fun p =>
      if bulkSelected user project_ids p then (ProjectRow.save (upd p) now 0).1
      else p
    { httpStatus := 200,
      db := db',
      newActivities := [{ projectId := match projects.head? with
                                       | some p => p.base.pk
                                       | none => none,
                          activity_type := "bulk_updated",
                          userId := some user.uid,
                          description := "Bulk updated",
                          changed_fields := [],
                          previous_values := [], new_values := [] }] }

/-- A `Task` row restricted to the fields `TaskViewSet.perform_update`
inspects, plus the title (which it does NOT inspect). -/
structure TaskRow where
  projectId : Option Nat
  title : String
  status : String
  priority : String
  assigned_to : Option Nat
  progress : Int
deriving DecidableEq, Repr

/-- Model of `TaskViewSet.perform_update`'s ledger effect: reload the old
row, save the new one, then append ONE `task_updated` Activity listing which
of status / priority / assigned_to / progress changed — or NO entry at all
when none of those four changed (changes to any other field, e.g. the
title, are not inspected, and no previous/new values are recorded). -/
def TaskViewSet.perform_update (oldTask newTask : TaskRow) (actorId : Nat) :
    List ActivityEntry :=
  let changed_fields :=
    (if oldTask.status ≠ newTask.status then ["status"] else [])
    ++ (if oldTask.priority ≠ newTask.priority then ["priority"] else [])
    ++ (if oldTask.assigned_to ≠ newTask.assigned_to then ["assigned_to"]
        else [])
    ++ (if oldTask.progress ≠ newTask.progress then ["progress"] else [])
  if changed_fields ≠ [] then
    [{ projectId := newTask.projectId, activity_type := "task_updated",
       userId := some actorId, description := "Task updated",
       changed_fields := changed_fields, previous_values := [],
       new_values := [] }]
  else []

/-! ## Milestones (projects/views.py::MilestoneViewSet) -/

/-- Model of `MilestoneViewSet.check_can_edit_milestone`: the body is
`return True` ("Allow all users to edit milestones for now"). -/
def MilestoneViewSet.check_can_edit_milestone (project : ProjectRow) : Bool :=
  true

/-- The milestone queryset (`MilestoneViewSet.get_queryset`): milestones of
projects the user owns or sits on — with NO superuser special case. -/
def MilestoneViewSet.in_queryset (mems : List Membership) (user : Principal)
    (project : ProjectRow) : Bool :=
  project.owner == user.uid ||
    mems.any fun m =>
      project.base.pk == some m.projectId && m.userId == user.uid

/-- Model of `MilestoneViewSet.get_project` (create path): require the
`project_id` query parameter, a live project with that pk, and
owner-or-`can_view` access; otherwise `PermissionDenied`. -/
def MilestoneViewSet.get_project (db : List ProjectRow)
    (mems : List Membership) (user : Principal)
    (projectIdParam : Option Nat) : Except String ProjectRow :=
  match projectIdParam with
  | none => .error "project_id query parameter required"
  | some pid =>
    match db.find? (fun p =>
        p.base.pk == some pid && p.base.deleted_at == none) with
    | none => .error "Project not found"
    | some project =>
      if project.owner != user.uid
          && !(can_view_project_details mems user project) then
        .error "You do not have access to this project"
      else .ok project

/-- Model of `MilestoneViewSet.perform_create`'s authorization and ledger
effect: `get_project`, then the (always-true) edit gate, then one
`milestone_added` Activity. -/
def MilestoneViewSet.perform_create (db : List ProjectRow)
    (mems : List Membership) (user : Principal)
    (projectIdParam : Option Nat) : Except String (List ActivityEntry) :=
  match MilestoneViewSet.get_project db mems user projectIdParam with
  | .error e => .error e
  | .ok project =>
    if !(MilestoneViewSet.check_can_edit_milestone project) then
      .error "You do not have permission to create milestones in this project"
    else
      .ok [{ projectId := project.base.pk,
             activity_type := "milestone_added", userId := some user.uid,
             description := "Milestone created", changed_fields := [],
             previous_values := [], new_values := [] }]

/-- Model of `MilestoneViewSet.perform_update`'s authorization and ledger
effect: `get_object` 404s outside the queryset; then the (always-true) edit
gate; then one `progress_updated` Activity. -/
def MilestoneViewSet.perform_update (mems : List Membership)
    (user : Principal) (project : ProjectRow) :
    Except String (List ActivityEntry) :=
  if !(MilestoneViewSet.in_queryset mems user project) then
    .error "not_found"
  else if !(MilestoneViewSet.check_can_edit_milestone project) then
    .error "You do not have permission to edit milestones in this project"
  else
    .ok [{ projectId := project.base.pk,
           activity_type := "progress_updated", userId := some user.uid,
           description := "Milestone updated", changed_fields := [],
           previous_values := [], new_values := [] }]

/-- Model of `MilestoneViewSet.perform_destroy`: same gates; one Activity
(typed `progress_updated` in the source). -/
def MilestoneViewSet.perform_destroy (mems : List Membership)
    (user : Principal) (project : ProjectRow) :
    Except String (List ActivityEntry) :=
  if !(MilestoneViewSet.in_queryset mems user project) then
    .error "not_found"
  else if !(MilestoneViewSet.check_can_edit_milestone project) then
    .error "You do not have permission to delete milestones in this project"
  else
    .ok [{ projectId := project.base.pk,
           activity_type := "progress_updated", userId := some user.uid,
           description := "Milestone deleted", changed_fields := [],
           previous_values := [], new_values := [] }]

/-- Model of the `MilestoneViewSet.complete` action: same gates; one
`milestone_completed` Activity. -/
def MilestoneViewSet.complete (mems : List Membership) (user : Principal)
    (project : ProjectRow) : Except String (List ActivityEntry) :=
  if !(MilestoneViewSet.in_queryset mems user project) then
    .error "not_found"
  else if !(MilestoneViewSet.check_can_edit_milestone project) then
    .error "You do not have permission to complete milestones in this project"
  else
    .ok [{ projectId := project.base.pk,
           activity_type := "milestone_completed", userId := some user.uid,
           description := "Milestone completed", changed_fields := [],
           previous_values := [], new_values := [] }]

/-! ## Helper lemmas -/

/-- Under row uniqueness, resolving the membership with `get` (= `find?`) and
then testing the role is the same as asking whether some membership row with
an edit-capable role exists. -/
theorem find_role_eq_any_role (mems : List Membership) (pk : Option Nat)
    (uid : Nat) (huniq : UniqueMemberships mems) :
    (match mems.find? (fun m => pk == some m.projectId && m.userId == uid) with
      | some m => m.roleKey == "lead" || m.roleKey == "manager"
      | none => false)
    = mems.any (fun m => pk == some m.projectId && m.userId == uid &&
        (m.roleKey == "lead" || m.roleKey == "manager")) := by
  induction mems with
  | nil => rfl
  | cons m rest ih =>
    have hpc := List.pairwise_cons.mp huniq
    by_cases hp : (pk == some m.projectId && m.userId == uid) = true
    · obtain ⟨hA, hB⟩ : pk = some m.projectId ∧ m.userId = uid := by
        simpa only [Bool.and_eq_true, beq_iff_eq] using hp
      have hfind : (m :: rest).find?
          (fun x => pk == some x.projectId && x.userId == uid) = some m :=
        List.find?_cons_of_pos _ hp
      have hrest : rest.any (fun x =>
          pk == some x.projectId && x.userId == uid &&
            (x.roleKey == "lead" || x.roleKey == "manager")) = false := by
        rw [List.any_eq_false]
        intro x hx hcon
        simp only [Bool.and_eq_true, beq_iff_eq] at hcon
        exact hpc.1 x hx
          ⟨Option.some.inj (hA.symm.trans hcon.1.1), hB.trans hcon.1.2.symm⟩
      rw [hfind, List.any_cons, hrest]
      simp [hA, hB]
    · have hpf : (pk == some m.projectId && m.userId == uid) = false := by
        simpa using hp
      have hfind : (m :: rest).find?
          (fun x => pk == some x.projectId && x.userId == uid)
          = rest.find? (fun x => pk == some x.projectId && x.userId == uid) :=
        List.find?_cons_of_neg _ (by simp [hpf])
      rw [hfind, ih hpc.2, List.any_cons]
      simp only [hpf, Bool.false_and, Bool.false_or]

/-- After `group_add`, the channel is a member of the group. -/
theorem mem_groupMembers_group_add (layer : List (String × List String))
    (room chan : String) :
    chan ∈ groupMembers (group_add layer room chan) room := by
  induction layer with
  | nil => simp [group_add, groupMembers]
  | cons e rest ih =>
    obtain ⟨r, chs⟩ := e
    simp only [group_add]
    by_cases hr : r = room
    · rw [if_pos hr]
      simp only [groupMembers]
      rw [if_pos hr]
      by_cases hc : chs.contains chan
      · rw [if_pos hc]
        exact List.mem_of_elem_eq_true hc
      · rw [if_neg hc]
        exact List.mem_append_right _ (by simp)
    · rw [if_neg hr]
      simp only [groupMembers]
      rw [if_neg hr]
      exact ih

/-- Characterization of the `capture_project_changes` fold: over any field
list, it appends exactly the fields satisfying `fieldChanged`, in order,
recording the stringified old value and the stringified submitted value. -/
theorem captureFoldl_eq (row : ProjectRow) (vd : List (String × FieldVal))
    (l : List String) (acc : Changes) :
    l.foldl (captureStep row vd) acc =
      { changed_fields := acc.changed_fields ++ l.filter (fieldChanged row vd),
        previous_values := acc.previous_values
          ++ (l.filter (fieldChanged row vd)).map
              (fun f => (f, strOfVal (projectFieldVal row f))),
        new_values := acc.new_values
          ++ (l.filter (fieldChanged row vd)).map
              (fun f => (f, (List.lookup f vd).bind strOfVal)) } := by
  induction l generalizing acc with
  | nil => simp
  | cons f rest ih =>
    rw [List.foldl_cons, List.filter_cons]
    by_cases hfc : fieldChanged row vd f = true
    · rw [if_pos hfc]
      obtain ⟨nv, hlook, hne⟩ : ∃ nv, List.lookup f vd = some nv ∧
          (projectFieldVal row f != nv) = true := by
        unfold fieldChanged at hfc
        cases hlook : List.lookup f vd with
        | none => rw [hlook] at hfc; exact absurd hfc (by simp)
        | some nv => rw [hlook] at hfc; exact ⟨nv, rfl, hfc⟩
      have hne' : projectFieldVal row f ≠ nv := bne_iff_ne.mp hne
      have hstep : captureStep row vd acc f =
          { changed_fields := acc.changed_fields ++ [f],
            previous_values := acc.previous_values
              ++ [(f, strOfVal (projectFieldVal row f))],
            new_values := acc.new_values ++ [(f, strOfVal nv)] } := by
        simp [captureStep, hlook, hne']
      rw [hstep, ih]
      simp [hlook, List.append_assoc]
    · rw [if_neg hfc]
      have hstep : captureStep row vd acc f = acc := by
        unfold fieldChanged at hfc
        unfold captureStep
        cases hlook : List.lookup f vd with
        | none => rfl
        | some nv =>
          rw [hlook] at hfc
          have hnn : ¬(projectFieldVal row f ≠ nv) := by simpa using hfc
          simp [hnn]
      rw [hstep, ih]

/-! ## Claim theorems -/

/-- C9: for every (principal, project) pair, write-path edit permission
implies view permission; and (given the `unique_together` constraint on
`TeamMember`) the edit permission holds exactly for superusers, the owner,
and team members whose role key is in the edit-capable set
`{lead, manager}`. -/
theorem can_edit_implies_can_view (mems : List Membership) (user : Principal)
    (project : ProjectRow) (huniq : UniqueMemberships mems) :
    (CanEditProject.has_object_permission mems false user project = true →
      CanViewProjectDetails.has_object_permission mems user project = true) ∧
    CanEditProject.has_object_permission mems false user project
      = editCapableSpec mems user project := by
  unfold CanEditProject.has_object_permission
    CanViewProjectDetails.has_object_permission editCapableSpec
  by_cases hso : (user.is_superuser || project.owner == user.uid) = true
  · simp [hso]
  · have hso' : (user.is_superuser || project.owner == user.uid) = false := by
      simpa using hso
    obtain ⟨hsu, how⟩ : user.is_superuser = false
        ∧ (project.owner == user.uid) = false := by
      simpa using Bool.or_eq_false_iff.mp hso'
    simp only [hso', Bool.false_eq_true, if_false, hsu, how, Bool.false_or]
    constructor
    · intro h
      cases hfind : mems.find? (fun m =>
          project.base.pk == some m.projectId && m.userId == user.uid) with
      | none => rw [hfind] at h; exact absurd h (by simp)
      | some m =>
          have hmem := List.mem_of_find?_eq_some hfind
          have hpred := List.find?_some hfind
          exact List.any_eq_true.mpr ⟨m, hmem, hpred⟩
    · exact find_role_eq_any_role mems project.base.pk user.uid huniq

/-- Witness for C9: project pk 1 owned by user 3; user 7 holds a `lead`
membership on it, so edit permission holds, and so does view permission. -/
theorem can_edit_implies_can_view_witness :
    UniqueMemberships [⟨1, 7, "lead"⟩] ∧
    (CanEditProject.has_object_permission [⟨1, 7, "lead"⟩] false ⟨7, false⟩
        { base := { pk := some 1, created_at := some 0, updated_at := some 0,
                    deleted_at := none, version := 1, etag := .empty },
          owner := 3, title := "p", description := "", status := "active",
          health := "healthy", progress := 0, start_date := none,
          end_date := none } = true →
      CanViewProjectDetails.has_object_permission [⟨1, 7, "lead"⟩] ⟨7, false⟩
        { base := { pk := some 1, created_at := some 0, updated_at := some 0,
                    deleted_at := none, version := 1, etag := .empty },
          owner := 3, title := "p", description := "", status := "active",
          health := "healthy", progress := 0, start_date := none,
          end_date := none } = true) := by
  refine ⟨by decide, (can_edit_implies_can_view _ _ _ (by decide)).1⟩

/-- C1 counterexample: user 7 is neither superuser nor owner nor team member
of project pk 1, so `can_view_project_details` is false; yet handling the
subscribe message joins the session's channel to room `project_1` anyway
(the request is not ignored). -/
theorem subscribe_joined_despite_no_view :
    can_view_project_details [] ⟨7, false⟩
      { base := { pk := some 1, created_at := some 0, updated_at := some 0,
                  deleted_at := none, version := 1, etag := .empty },
        owner := 3, title := "p", description := "", status := "active",
        health := "healthy", progress := 0, start_date := none,
        end_date := none } = false ∧
    "ch1" ∈ groupMembers
      (NotificationConsumer.receive [] "ch1" (.subscribe_project (some 1)))
      "project_1" := by
  constructor
  · rfl
  · decide

/-- C1 (amended): a `subscribe_project` message always joins the session's
channel to the project room — for every layer state, channel and project id.
No authorization is consulted: the receive handler does not even take the
membership table or the project rows as input. -/
theorem subscribe_always_joins (layer : List (String × List String))
    (chan : String) (pid : Option Nat) :
    NotificationConsumer.receive layer chan (.subscribe_project pid)
      = group_add layer (projectRoom pid) chan ∧
    chan ∈ groupMembers
      (NotificationConsumer.receive layer chan (.subscribe_project pid))
      (projectRoom pid) :=
  ⟨rfl, mem_groupMembers_group_add layer (projectRoom pid) chan⟩

/-- C2: neither `ProjectUpdateConsumer` nor its base class defines
`get_user_from_token`, so the attribute lookup in `connect` fails and the
coroutine ends in `AttributeError` for every project id, channel and
authentication outcome — the endpoint never accepts a connection and never
touches the channel layer. -/
theorem project_update_connect_never_accepts
    (layer : List (String × List String)) (pid : Nat) (chan : String)
    (authOk : Bool) :
    resolves [ProjectUpdateConsumer.methods, AsyncWebsocketConsumer.methods]
      "get_user_from_token" = false ∧
    (ProjectUpdateConsumer.connect layer pid chan authOk).1
      = ConnectOutcome.attributeError ∧
    (ProjectUpdateConsumer.connect layer pid chan authOk).2 = layer := by
  have hres : resolves [ProjectUpdateConsumer.methods,
      AsyncWebsocketConsumer.methods] "get_user_from_token" = false := by
    decide
  refine ⟨hres, ?_, ?_⟩ <;> simp [ProjectUpdateConsumer.connect, hres]

/-- C3: the failing input evaluated — saving a freshly loaded row (version
1) at a later instant stores a fresh etag but the SAME version 1: in
`BaseModel.save` the `self.version += 1` executes after `super().save()`,
so only the in-memory copy (`.2`) is bumped and the persisted version never
increases. -/
theorem version_not_persisted_on_save :
    (let b : BaseFields := { pk := some 1, created_at := some 0,
                             updated_at := some 10, deleted_at := none,
                             version := 1, etag := .md5 (some 1) (some 5) }
     (BaseModel.save b 20 0).1.version = 1
       ∧ (BaseModel.save b 20 0).1.version ≠ b.version + 1
       ∧ (BaseModel.save b 20 0).2.version = 2
       ∧ (BaseModel.save b 20 0).1.etag ≠ b.etag) := by
  decide

/-- C4 counterexample: saving a row whose previous save stamped instant 10
at instant 20 stores `updated_at = 20` but an etag computed from the
PRE-save timestamp 10, not from 20; and a freshly created row (pk not yet
assigned) stores an etag whose id component is `None` even though the
persisted row's pk is 99. -/
theorem etag_from_stale_timestamp :
    (let b : BaseFields := { pk := some 5, created_at := some 0,
                             updated_at := some 10, deleted_at := none,
                             version := 3, etag := .md5 (some 5) (some 8) }
     (BaseModel.save b 20 0).1.updated_at = some 20
       ∧ (BaseModel.save b 20 0).1.etag = .md5 (some 5) (some 10)
       ∧ (BaseModel.save b 20 0).1.etag ≠ .md5 (some 5) (some 20)) ∧
    (let c : BaseFields := { pk := none, created_at := none,
                             updated_at := none, deleted_at := none,
                             version := 1, etag := .empty }
     (BaseModel.save c 20 99).1.pk = some 99
       ∧ (BaseModel.save c 20 99).1.etag = .md5 none none
       ∧ (BaseModel.save c 20 99).1.etag ≠ .md5 (some 99) (some 20)) := by
  decide

/-- C4 (amended): on every save the stored etag is the deterministic digest
of the PRE-save (id, last-modified) pair — the pk from before an INSERT
assigns one and the timestamp of the previous save — while the persisted
row itself carries the new timestamp and the assigned pk. -/
theorem etag_regenerated_from_presave_state (b : BaseFields)
    (now newPk : Nat) :
    (BaseModel.save b now newPk).1.etag = EtagStr.md5 b.pk b.updated_at ∧
    (BaseModel.save b now newPk).1.updated_at = some now ∧
    (BaseModel.save b now newPk).1.pk = some (b.pk.getD newPk) :=
  ⟨rfl, rfl, rfl⟩

/-- C5: an update request carrying a non-empty etag that differs from the
stored one is rejected with the optimistic-concurrency 409 and leaves
everything untouched — the row after the failed write equals the row
before, no ledger entry is appended, nothing is pushed. -/
theorem stale_etag_rejected_unchanged (layer : List (String × List String))
    (row : ProjectRow) (vd : List (String × FieldVal)) (actorId now : Nat)
    (e : EtagStr) (hne : e ≠ EtagStr.empty) (hmis : e ≠ row.base.etag) :
    ProjectViewSet.perform_update layer (some e) row vd actorId now
      = { httpStatus := OptimisticConcurrencyException.status_code,
          row := row, newActivities := [], pushed := [] } := by
  have hconf : etagConflict (some e) row = true := by
    simp [etagConflict, bne_iff_ne, hne, hmis]
  unfold ProjectViewSet.perform_update
  rw [if_pos hconf]

/-- Witness for C5: a client-made etag string `stale` differing from the
stored digest yields the 409 outcome with the row, ledger and pushes
untouched. -/
theorem stale_etag_rejected_unchanged_witness :
    ProjectViewSet.perform_update [] (some (.other "stale"))
      { base := { pk := some 1, created_at := some 0, updated_at := some 10,
                  deleted_at := none, version := 1,
                  etag := .md5 (some 1) (some 5) },
        owner := 3, title := "p", description := "", status := "active",
        health := "healthy", progress := 0, start_date := none,
        end_date := none } [] 7 20
      = { httpStatus := 409,
          row := { base := { pk := some 1, created_at := some 0,
                             updated_at := some 10, deleted_at := none,
                             version := 1, etag := .md5 (some 1) (some 5) },
                   owner := 3, title := "p", description := "",
                   status := "active", health := "healthy", progress := 0,
                   start_date := none, end_date := none },
          newActivities := [], pushed := [] } :=
  stale_etag_rejected_unchanged [] _ [] 7 20 (.other "stale")
    (by decide) (by decide)

/-- C6: `notify_project_team`'s recipient list is identical for every value
of `exclude_user` (the argument is never read), and at the failing input —
actor 7's own session channel `chA` sits in room `project_1` — a successful
update still delivers the actor's own notification to `chA` even though the
caller passed `exclude_user = actor`; the single ledger entry does record
actor 7. -/
theorem actor_receives_own_notification :
    (∀ (layer : List (String × List String)) (p : ProjectRow)
        (et t m : String) (a : Nat) (x y : Option Nat),
      notify_project_team layer p et a t m x
        = notify_project_team layer p et a t m y) ∧
    ("chA", WsEvent.notification "project_updated" "Project Updated"
        "Project updated" (some 1) 7)
      ∈ (ProjectViewSet.perform_update [("project_1", ["chA", "chB"])] none
          { base := { pk := some 1, created_at := some 0,
                      updated_at := some 10, deleted_at := none,
                      version := 1, etag := .md5 (some 1) (some 5) },
            owner := 7, title := "p", description := "", status := "active",
            health := "healthy", progress := 0, start_date := none,
            end_date := none } [] 7 20).pushed ∧
    (ProjectViewSet.perform_update [("project_1", ["chA", "chB"])] none
        { base := { pk := some 1, created_at := some 0,
                    updated_at := some 10, deleted_at := none,
                    version := 1, etag := .md5 (some 1) (some 5) },
          owner := 7, title := "p", description := "", status := "active",
          health := "healthy", progress := 0, start_date := none,
          end_date := none } [] 7 20).newActivities.map (fun en => en.userId)
      = [some 7] := by
  refine ⟨fun layer p et t m a x y => rfl, ?_, ?_⟩ <;> decide

/-- C7: `bulk_update` is all-or-nothing — when every requested id is
covered by an owned live project but any selected project fails the etag
check, the call returns 409 with the project table and the ledger entirely
unchanged; when all selected projects pass, exactly one aggregate
`bulk_updated` ledger entry is appended for the whole batch. -/
theorem bulk_update_atomic (db : List ProjectRow) (user : Principal)
    (project_ids : List Nat) (etag : EtagStr)
    (statusUpd healthUpd : Option String) (now : Nat) :
    ((db.filter (bulkSelected user project_ids)).length = project_ids.length →
      (∃ p ∈ db.filter (bulkSelected user project_ids),
        p.base.etag ≠ etag) →
      ProjectViewSet.bulk_update db user project_ids etag statusUpd
          healthUpd now
        = { httpStatus := 409, db := db, newActivities := [] }) ∧
    ((db.filter (bulkSelected user project_ids)).length = project_ids.length →
      (∀ p ∈ db.filter (bulkSelected user project_ids),
        p.base.etag = etag) →
      (ProjectViewSet.bulk_update db user project_ids etag statusUpd
          healthUpd now).httpStatus = 200 ∧
      (ProjectViewSet.bulk_update db user project_ids etag statusUpd
          healthUpd now).newActivities.map (fun en => en.activity_type)
        = ["bulk_updated"]) := by
  constructor
  · intro hlen hex
    obtain ⟨p, hp, hne⟩ := hex
    simp only [ProjectViewSet.bulk_update]
    rw [if_neg (fun h => h hlen)]
    have hany : (db.filter (bulkSelected user project_ids)).any
        (fun p => p.base.etag != etag) = true :=
      List.any_eq_true.mpr ⟨p, hp, bne_iff_ne.mpr hne⟩
    rw [if_pos hany]
  · intro hlen hall
    simp only [ProjectViewSet.bulk_update]
    rw [if_neg (fun h => h hlen)]
    have hany : (db.filter (bulkSelected user project_ids)).any
        (fun p => p.base.etag != etag) = false := by
      rw [List.any_eq_false]
      intro p hp
      simpa using hall p hp
    rw [if_neg (by simp [hany])]
    exact ⟨rfl, rfl⟩

/-- Witness for C7: one live project pk 1 owned by user 7 with stored etag
digest (1, 5).  A batch over id 1 with a wrong expected etag returns 409
and leaves the table and ledger unchanged; the same batch with the right
etag succeeds with exactly one aggregate `bulk_updated` entry. -/
theorem bulk_update_atomic_witness :
    ProjectViewSet.bulk_update
      [{ base := { pk := some 1, created_at := some 0, updated_at := some 10,
                   deleted_at := none, version := 1,
                   etag := .md5 (some 1) (some 5) },
         owner := 7, title := "p", description := "", status := "active",
         health := "healthy", progress := 0, start_date := none,
         end_date := none }] ⟨7, false⟩ [1] (.other "x") (some "on_hold")
      none 20
      = { httpStatus := 409,
          db := [{ base := { pk := some 1, created_at := some 0,
                             updated_at := some 10, deleted_at := none,
                             version := 1, etag := .md5 (some 1) (some 5) },
                   owner := 7, title := "p", description := "",
                   status := "active", health := "healthy", progress := 0,
                   start_date := none, end_date := none }],
          newActivities := [] } ∧
    (ProjectViewSet.bulk_update
      [{ base := { pk := some 1, created_at := some 0, updated_at := some 10,
                   deleted_at := none, version := 1,
                   etag := .md5 (some 1) (some 5) },
         owner := 7, title := "p", description := "", status := "active",
         health := "healthy", progress := 0, start_date := none,
         end_date := none }] ⟨7, false⟩ [1] (.md5 (some 1) (some 5))
      (some "on_hold") none 20).newActivities.map (fun en => en.activity_type)
      = ["bulk_updated"] :=
  ⟨(bulk_update_atomic _ _ _ _ _ _ _).1 (by decide) (by decide),
   ((bulk_update_atomic _ _ _ _ _ _ _).2 (by decide) (by decide)).2⟩

/-- C8 counterexample: a successful task update that changes only the title
appends NO ledger entry at all — the task path inspects only status,
priority, assignee and progress — refuting "every successful mutation
appends exactly one change-ledger entry". -/
theorem task_title_update_appends_no_entry :
    (⟨some 1, "Old", "todo", "medium", none, 0⟩ : TaskRow)
      ≠ ⟨some 1, "New", "todo", "medium", none, 0⟩ ∧
    TaskViewSet.perform_update ⟨some 1, "Old", "todo", "medium", none, 0⟩
      ⟨some 1, "New", "todo", "medium", none, 0⟩ 7 = [] := by
  decide

/-- C8 (amended): a conflict-free project update appends exactly one entry
whose previous/new values cover exactly the tracked fields that were
submitted with a different value; a task update appends one entry when one
of status / priority / assigned_to / progress changed and none otherwise;
soft delete, restore and milestone updates append exactly one entry each
(with empty field diffs). -/
theorem ledger_entries_per_mutation :
    (∀ (layer : List (String × List String)) (reqEtag : Option EtagStr)
        (row : ProjectRow) (vd : List (String × FieldVal)) (a now : Nat),
      etagConflict reqEtag row = false →
      (ProjectViewSet.perform_update layer reqEtag row vd a
          now).newActivities.map (fun en =>
            (en.activity_type, en.changed_fields, en.previous_values,
              en.new_values))
        = [("updated", (capture_project_changes row vd).changed_fields,
            (capture_project_changes row vd).previous_values,
            (capture_project_changes row vd).new_values)]) ∧
    (∀ (row : ProjectRow) (vd : List (String × FieldVal)) (f : String),
      f ∈ (capture_project_changes row vd).changed_fields
        ↔ f ∈ trackedFields ∧ fieldChanged row vd f = true) ∧
    (∀ (row : ProjectRow) (vd : List (String × FieldVal)) (f : String),
      fieldChanged row vd f = true
        ↔ ∃ nv, List.lookup f vd = some nv ∧ projectFieldVal row f ≠ nv) ∧
    (∀ (row : ProjectRow) (vd : List (String × FieldVal)),
      (capture_project_changes row vd).previous_values.map Prod.fst
        = (capture_project_changes row vd).changed_fields ∧
      (capture_project_changes row vd).new_values.map Prod.fst
        = (capture_project_changes row vd).changed_fields) ∧
    (∀ (t0 t1 : TaskRow) (a : Nat),
      (TaskViewSet.perform_update t0 t1 a).length
        = if t0.status ≠ t1.status ∨ t0.priority ≠ t1.priority
            ∨ t0.assigned_to ≠ t1.assigned_to ∨ t0.progress ≠ t1.progress
          then 1 else 0) ∧
    (∀ (layer : List (String × List String)) (row : ProjectRow) (a now : Nat),
      (ProjectViewSet.soft_delete layer row a now).newActivities.length
        = 1) ∧
    (∀ (layer : List (String × List String)) (row : ProjectRow) (a now : Nat),
      row.base.deleted_at ≠ none →
      (ProjectViewSet.restore layer row a now).newActivities.length = 1) ∧
    (∀ (mems : List Membership) (user : Principal) (project : ProjectRow),
      MilestoneViewSet.in_queryset mems user project = true →
      ∃ en, MilestoneViewSet.perform_update mems user project = .ok [en]) := by
  refine ⟨?_, ?_, ?_, ?_, ?_, ?_, ?_, ?_⟩
  · intro layer reqEtag row vd a now h
    simp only [ProjectViewSet.perform_update]
    rw [if_neg (by simp [h])]
    rfl
  · intro row vd f
    rw [capture_project_changes, captureFoldl_eq]
    simp [List.mem_filter]
  · intro row vd f
    unfold fieldChanged
    cases hlook : List.lookup f vd with
    | none => simp
    | some nv => simp [bne_iff_ne]
  · intro row vd
    rw [capture_project_changes, captureFoldl_eq]
    simp only [List.nil_append, List.map_map]
    exact ⟨List.map_id _, List.map_id _⟩
  · intro t0 t1 a
    unfold TaskViewSet.perform_update
    by_cases h1 : t0.status = t1.status <;>
      by_cases h2 : t0.priority = t1.priority <;>
        by_cases h3 : t0.assigned_to = t1.assigned_to <;>
          by_cases h4 : t0.progress = t1.progress <;>
            simp [h1, h2, h3, h4]
  · intro layer row a now
    rfl
  · intro layer row a now h
    simp only [ProjectViewSet.restore]
    rw [if_neg h]
    rfl
  · intro mems user project h
    have hq : (!MilestoneViewSet.in_queryset mems user project) = false := by
      simp [h]
    simp only [MilestoneViewSet.perform_update, hq,
      MilestoneViewSet.check_can_edit_milestone, Bool.not_true,
      Bool.false_eq_true, if_false]
    exact ⟨_, rfl⟩

/-- Witness for C8 (amended): an update submitting only a new title appends
one entry whose structured diff is the captured diff; restoring a deleted
project appends one entry; a member's milestone update appends one entry. -/
theorem ledger_entries_per_mutation_witness :
    etagConflict none
      { base := { pk := some 1, created_at := some 0, updated_at := some 10,
                  deleted_at := none, version := 1,
                  etag := .md5 (some 1) (some 5) },
        owner := 3, title := "p", description := "", status := "active",
        health := "healthy", progress := 0, start_date := none,
        end_date := none } = false ∧
    (ProjectViewSet.perform_update [] none
      { base := { pk := some 1, created_at := some 0, updated_at := some 10,
                  deleted_at := none, version := 1,
                  etag := .md5 (some 1) (some 5) },
        owner := 3, title := "p", description := "", status := "active",
        health := "healthy", progress := 0, start_date := none,
        end_date := none } [("title", FieldVal.s "New")] 7
      20).newActivities.map (fun en =>
        (en.activity_type, en.changed_fields, en.previous_values,
          en.new_values))
      = [("updated",
          (capture_project_changes
            { base := { pk := some 1, created_at := some 0,
                        updated_at := some 10, deleted_at := none,
                        version := 1, etag := .md5 (some 1) (some 5) },
              owner := 3, title := "p", description := "",
              status := "active", health := "healthy", progress := 0,
              start_date := none, end_date := none }
            [("title", FieldVal.s "New")]).changed_fields,
          (capture_project_changes
            { base := { pk := some 1, created_at := some 0,
                        updated_at := some 10, deleted_at := none,
                        version := 1, etag := .md5 (some 1) (some 5) },
              owner := 3, title := "p", description := "",
              status := "active", health := "healthy", progress := 0,
              start_date := none, end_date := none }
            [("title", FieldVal.s "New")]).previous_values,
          (capture_project_changes
            { base := { pk := some 1, created_at := some 0,
                        updated_at := some 10, deleted_at := none,
                        version := 1, etag := .md5 (some 1) (some 5) },
              owner := 3, title := "p", description := "",
              status := "active", health := "healthy", progress := 0,
              start_date := none, end_date := none }
            [("title", FieldVal.s "New")]).new_values)] ∧
    (ProjectViewSet.restore []
      { base := { pk := some 1, created_at := some 0, updated_at := some 10,
                  deleted_at := some 15, version := 1,
                  etag := .md5 (some 1) (some 5) },
        owner := 3, title := "p", description := "", status := "active",
        health := "healthy", progress := 0, start_date := none,
        end_date := none } 7 20).newActivities.length = 1 ∧
    (∃ en, MilestoneViewSet.perform_update [⟨1, 7, "developer"⟩] ⟨7, false⟩
      { base := { pk := some 1, created_at := some 0, updated_at := some 10,
                  deleted_at := none, version := 1,
                  etag := .md5 (some 1) (some 5) },
        owner := 3, title := "p", description := "", status := "active",
        health := "healthy", progress := 0, start_date := none,
        end_date := none } = .ok [en]) :=
  ⟨by decide,
   ledger_entries_per_mutation.1 [] none _ [("title", FieldVal.s "New")] 7 20
     (by decide),
   ledger_entries_per_mutation.2.2.2.2.2.2.1 [] _ 7 20 (by decide),
   ledger_entries_per_mutation.2.2.2.2.2.2.2 [⟨1, 7, "developer"⟩]
     ⟨7, false⟩ _ (by decide)⟩

/-- C10: every authenticated principal who can view a project — the owner
or any team member, with any role — is permitted milestone create, update,
delete and complete: the role-based edit gate is never applied because
`check_can_edit_milestone` returns true for every project. -/
theorem milestones_editable_by_any_viewer (db : List ProjectRow)
    (mems : List Membership) (user : Principal) (project : ProjectRow)
    (pid : Nat)
    (hfind : db.find? (fun p => p.base.pk == some pid
        && p.base.deleted_at == none) = some project)
    (hacc : project.owner = user.uid
        ∨ ∃ m ∈ mems, project.base.pk = some m.projectId
            ∧ m.userId = user.uid) :
    (∀ q : ProjectRow, MilestoneViewSet.check_can_edit_milestone q = true) ∧
    (∃ l, MilestoneViewSet.perform_create db mems user (some pid) = .ok l) ∧
    (∃ l, MilestoneViewSet.perform_update mems user project = .ok l) ∧
    (∃ l, MilestoneViewSet.perform_destroy mems user project = .ok l) ∧
    (∃ l, MilestoneViewSet.complete mems user project = .ok l) := by
  have hmem : (project.owner == user.uid) = true
      ∨ mems.any (fun m => project.base.pk == some m.projectId
          && m.userId == user.uid) = true := by
    rcases hacc with h | ⟨m, hm, h1, h2⟩
    · exact Or.inl (by simp [h])
    · exact Or.inr (List.any_eq_true.mpr ⟨m, hm, by simp [h1, h2]⟩)
  have hq : MilestoneViewSet.in_queryset mems user project = true := by
    unfold MilestoneViewSet.in_queryset
    rcases hmem with h | h <;> simp [h]
  have hview : can_view_project_details mems user project = true := by
    unfold can_view_project_details
    rcases hmem with h | h
    · simp [h]
    · by_cases hso : (user.is_superuser || project.owner == user.uid) = true
      · simp [hso]
      · have hso' : (user.is_superuser || project.owner == user.uid)
            = false := by simpa using hso
        simp [hso', h]
  have hgate : (project.owner != user.uid
      && !(can_view_project_details mems user project)) = false := by
    simp [hview]
  have hq' : (!MilestoneViewSet.in_queryset mems user project) = false := by
    simp [hq]
  refine ⟨fun q => rfl, ?_, ?_, ?_, ?_⟩
  · simp only [MilestoneViewSet.perform_create, MilestoneViewSet.get_project,
      hfind, hgate, Bool.false_eq_true, if_false,
      MilestoneViewSet.check_can_edit_milestone, Bool.not_true]
    exact ⟨_, rfl⟩
  · simp only [MilestoneViewSet.perform_update, hq',
      MilestoneViewSet.check_can_edit_milestone, Bool.not_true,
      Bool.false_eq_true, if_false]
    exact ⟨_, rfl⟩
  · simp only [MilestoneViewSet.perform_destroy, hq',
      MilestoneViewSet.check_can_edit_milestone, Bool.not_true,
      Bool.false_eq_true, if_false]
    exact ⟨_, rfl⟩
  · simp only [MilestoneViewSet.complete, hq',
      MilestoneViewSet.check_can_edit_milestone, Bool.not_true,
      Bool.false_eq_true, if_false]
    exact ⟨_, rfl⟩

/-- Witness for C10: user 7 is a `developer` (view-only role) on project pk
1 owned by user 3, and all four milestone operations succeed. -/
theorem milestones_editable_by_any_viewer_witness :
    (∃ l, MilestoneViewSet.perform_create
      [{ base := { pk := some 1, created_at := some 0, updated_at := some 10,
                   deleted_at := none, version := 1,
                   etag := .md5 (some 1) (some 5) },
         owner := 3, title := "p", description := "", status := "active",
         health := "healthy", progress := 0, start_date := none,
         end_date := none }] [⟨1, 7, "developer"⟩] ⟨7, false⟩ (some 1)
      = .ok l) ∧
    (∃ l, MilestoneViewSet.complete [⟨1, 7, "developer"⟩] ⟨7, false⟩
      { base := { pk := some 1, created_at := some 0, updated_at := some 10,
                  deleted_at := none, version := 1,
                  etag := .md5 (some 1) (some 5) },
        owner := 3, title := "p", description := "", status := "active",
        health := "healthy", progress := 0, start_date := none,
        end_date := none } = .ok l) :=
  ⟨(milestones_editable_by_any_viewer
      [{ base := { pk := some 1, created_at := some 0, updated_at := some 10,
                   deleted_at := none, version := 1,
                   etag := .md5 (some 1) (some 5) },
         owner := 3, title := "p", description := "", status := "active",
         health := "healthy", progress := 0, start_date := none,
         end_date := none }] [⟨1, 7, "developer"⟩] ⟨7, false⟩
      { base := { pk := some 1, created_at := some 0, updated_at := some 10,
                  deleted_at := none, version := 1,
                  etag := .md5 (some 1) (some 5) },
        owner := 3, title := "p", description := "", status := "active",
        health := "healthy", progress := 0, start_date := none,
        end_date := none } 1
      (by decide) (Or.inr (by decide))).2.1,
   (milestones_editable_by_any_viewer
      [{ base := { pk := some 1, created_at := some 0, updated_at := some 10,
                   deleted_at := none, version := 1,
                   etag := .md5 (some 1) (some 5) },
         owner := 3, title := "p", description := "", status := "active",
         health := "healthy", progress := 0, start_date := none,
         end_date := none }] [⟨1, 7, "developer"⟩] ⟨7, false⟩
      { base := { pk := some 1, created_at := some 0, updated_at := some 10,
                  deleted_at := none, version := 1,
                  etag := .md5 (some 1) (some 5) },
        owner := 3, title := "p", description := "", status := "active",
        health := "healthy", progress := 0, start_date := none,
        end_date := none } 1
      (by decide) (Or.inr (by decide))).2.2.2.2⟩

end PMDash
